import Mathlib

/-!
Shallow embedding of `src/sync.py` and `src/x_cls_make_gitignore_sync_x.py`
from the gitignore-sync repository.

The tool copies a canonical `.gitignore` template into every git repository
found under a workspace root. Filesystem state is made explicit:

* the content of a single file is a `File` — `absent` (the path does not
  exist), `utf8 c` (the file exists and decodes, under Python's strict UTF-8
  codec, to the string `c`), or `invalid` (the file exists but its bytes are
  not valid UTF-8, so `Path.read_text(encoding="utf-8")` raises
  `UnicodeDecodeError`);
* every function that in Python touches the filesystem returns, next to the
  Python return value, the new file states and a trace of `FsEvent`s (one
  event per `read_text` / `write_text` call on a `.gitignore`);
* a Python exception becomes an `Except` error value that is threaded through
  callers exactly where the exception would propagate.
-/

namespace GitignoreSync

/-- State of one file on disk, as far as `sync.py` can observe it through
`exists`, `read_text(encoding="utf-8")` and `write_text(encoding="utf-8")`. -/
inductive File where
  | absent : File
  | utf8 : String → File
  | invalid : File
deriving DecidableEq, Repr

/-- The Python exceptions that the modelled code can raise. -/
inductive PyError where
  | fileNotFound : String → PyError
  | unicodeDecodeError : PyError
deriving DecidableEq, Repr

/-- One filesystem access performed on a repository's `.gitignore`. -/
inductive FsEvent where
  | readGitignore : String → FsEvent
  | writeGitignore : String → String → FsEvent
deriving DecidableEq, Repr

/-- Recognises write events in a trace. -/
def isWrite : FsEvent → Bool
  | .writeGitignore _ _ => true
  | .readGitignore _ => false

/-- Equality of modelled Python return values (an exception or a value) is
decidable componentwise. -/
instance instDecEqExcept {ε α : Type} [DecidableEq ε] [DecidableEq α] :
    DecidableEq (Except ε α) := fun a b =>
  match a, b with
  | .ok x, .ok y =>
      if h : x = y then isTrue (by rw [h])
      else isFalse (fun hh => h (Except.ok.inj hh))
  | .error x, .error y =>
      if h : x = y then isTrue (by rw [h])
      else isFalse (fun hh => h (Except.error.inj hh))
  | .ok _, .error _ => isFalse (fun hh => Except.noConfusion hh)
  | .error _, .ok _ => isFalse (fun hh => Except.noConfusion hh)

/-- A repository as the synchroniser sees it: its path and the state of its
`.gitignore` file. -/
structure Repo where
  path : String
  gitignore : File
deriving DecidableEq, Repr

/-- The `SyncResult` dataclass of `sync.py`: the three outcome buckets. -/
structure SyncResult where
  created : List String
  updated : List String
  unchanged : List String
deriving DecidableEq, Repr

/-! ### Path ordering

Python's `sorted` on `Path` objects compares paths componentwise by their
string parts, which for the flat one-level layout produced by discovery
coincides with lexicographic comparison of the path strings by Unicode code
point. `charsLe` is that code-point order on the character lists underlying
Lean strings. -/

/-- Lexicographic (code point) comparison of character lists. -/
def charsLe : List Char → List Char → Bool
  | [], _ => true
  | _ :: _, [] => false
  | a :: as, b :: bs =>
    if a.toNat < b.toNat then true
    else if b.toNat < a.toNat then false
    else charsLe as bs

/-- Lexicographic code-point comparison of strings, the order used by
Python's `sorted` on the discovered paths. -/
def strLe (a b : String) : Bool :=
  charsLe a.data b.data

theorem charsLe_cons (x y : Char) (xs ys : List Char) :
    charsLe (x :: xs) (y :: ys) =
      if x.toNat < y.toNat then true
      else if y.toNat < x.toNat then false
      else charsLe xs ys := rfl

theorem charsLe_total (a b : List Char) : charsLe a b = true ∨ charsLe b a = true := by
  induction a generalizing b with
  | nil => left; rfl
  | cons x xs ih =>
    cases b with
    | nil => right; rfl
    | cons y ys =>
      rw [charsLe_cons, charsLe_cons]
      rcases Nat.lt_trichotomy x.toNat y.toNat with h | h | h
      · left
        simp [h]
      · rcases ih ys with h2 | h2
        · left
          simp [h, h2]
        · right
          simp [h.symm, h2]
      · right
        simp [h]

theorem charsLe_trans {a b c : List Char} (hab : charsLe a b = true)
    (hbc : charsLe b c = true) : charsLe a c = true := by
  induction a generalizing b c with
  | nil => rfl
  | cons x xs ih =>
    cases b with
    | nil => simp [charsLe] at hab
    | cons y ys =>
      cases c with
      | nil => simp [charsLe] at hbc
      | cons z zs =>
        rw [charsLe_cons] at hab hbc ⊢
        by_cases hxy : x.toNat < y.toNat <;> by_cases hyx : y.toNat < x.toNat <;>
          by_cases hyz : y.toNat < z.toNat <;> by_cases hzy : z.toNat < y.toNat <;>
          by_cases hxz : x.toNat < z.toNat <;> by_cases hzx : z.toNat < x.toNat <;>
          simp [hxy, hyx, hyz, hzy, hxz, hzx] at hab hbc ⊢ <;>
          first
          | omega
          | exact ih hab hbc

instance strLeTotal : IsTotal String (fun a b => strLe a b = true) :=
  ⟨fun a b => charsLe_total a.data b.data⟩

instance strLeTrans : IsTrans String (fun a b => strLe a b = true) :=
  ⟨fun _ _ _ hab hbc => charsLe_trans hab hbc⟩

/-! ### Repository discovery (`_discover_repositories`) -/

/-- A directory entry of the workspace root, as `root.iterdir()` yields it:
its name, whether it is a directory, and whether it contains a `.git`
entry. -/
structure DirEntry where
  name : String
  is_dir : Bool
  has_git : Bool
deriving DecidableEq, Repr

/-- The workspace root directory: whether it contains a `.git` entry and its
direct children in `iterdir` order. -/
structure RootDir where
  has_git : Bool
  children : List DirEntry
deriving DecidableEq, Repr

/-- Path of a direct child of the workspace root (Python `root / name`). -/
def childPath (rootPath : String) (name : String) : String :=
  rootPath ++ ("/") ++ name

/-- Embedding of `sync._discover_repositories`: the root itself when it has a
`.git` entry, then every non-hidden direct child directory with a `.git`
entry, sorted. -/
def _discover_repositories (rootPath : String) (root : RootDir) : List String :=
  let repos : List String :=
    (if root.has_git then [rootPath] else []) ++
      (root.children.filter
        (fun c => c.is_dir && !(c.name.startsWith (".")) && c.has_git)).map
        (fun c => childPath rootPath c.name)
  List.insertionSort (fun a b => strLe a b = true) repos

/-! ### Template loading (`_load_template`) -/

/-- Embedding of `Path.read_text(encoding="utf-8")` on a file in state `f`
at path `path`. -/
def read_text (f : File) (path : String) : Except PyError String :=
  match f with
  | .absent => .error (.fileNotFound path)
  | .invalid => .error .unicodeDecodeError
  | .utf8 c => .ok c

/-- Embedding of `sync._load_template`: re-raises `FileNotFoundError` with a
message naming the path; every other error propagates unchanged. -/
def _load_template (f : File) (path : String) : Except PyError String :=
  match read_text f path with
  | .error (.fileNotFound _) =>
      .error (.fileNotFound (("template file not found: ") ++ path))
  | .error e => .error e
  | .ok c => .ok c

/-! ### Per-repository synchronisation (`_sync_repo`) -/

/-- Embedding of `sync._sync_repo`. Returns the Python return value
(`"created"`, `"updated"`, or `None`, as `Option String`; a raised exception
as `.error`), the new state of the repository's `.gitignore`, and the trace
of filesystem accesses to that file. -/
def _sync_repo (repo : Repo) (template : String) (dry_run : Bool) :
    Except PyError (Option String) × File × List FsEvent :=
  match repo.gitignore with
  | .absent =>
      if dry_run then
        (.ok (some ("created")), .absent, [])
      else
        (.ok (some ("created")), .utf8 template,
          [.writeGitignore repo.path template])
  | .invalid =>
      (.error .unicodeDecodeError, .invalid, [.readGitignore repo.path])
  | .utf8 current =>
      if current = template then
        (.ok none, .utf8 current, [.readGitignore repo.path])
      else if dry_run then
        (.ok (some ("updated")), .utf8 current, [.readGitignore repo.path])
      else
        (.ok (some ("updated")), .utf8 template,
          [.readGitignore repo.path, .writeGitignore repo.path template])

/-! ### Aggregation (`_sync_all`) -/

/-- The loop body of `sync._sync_all`: accumulator `acc` holds the buckets
filled so far, `done` the already-processed repositories (most recent first)
with their new file states, `evs` the filesystem trace so far. A raised
exception stops the loop and propagates, leaving already-processed
repositories in their new states and later ones untouched. -/
def _sync_all_go (template : String) (dry_run : Bool) :
    List Repo → SyncResult → List Repo → List FsEvent →
    Except PyError SyncResult × List Repo × List FsEvent
  | [], acc, done, evs => (.ok acc, done.reverse, evs)
  | r :: rest, acc, done, evs =>
    match _sync_repo r template dry_run with
    | (.error e, f, ev) =>
        (.error e, done.reverse ++ ({ path := r.path, gitignore := f } :: rest),
          evs ++ ev)
    | (.ok out, f, ev) =>
        let acc' : SyncResult :=
          if out = some ("created") then
            { acc with created := acc.created ++ [r.path] }
          else if out = some ("updated") then
            { acc with updated := acc.updated ++ [r.path] }
          else
            { acc with unchanged := acc.unchanged ++ [r.path] }
        _sync_all_go template dry_run rest acc'
          ({ path := r.path, gitignore := f } :: done) (evs ++ ev)

/-- Embedding of `sync._sync_all`: fold `_sync_repo` over the repositories,
sorting each outcome into its bucket in traversal order. -/
def _sync_all (repos : List Repo) (template : String) (dry_run : Bool) :
    Except PyError SyncResult × List Repo × List FsEvent :=
  _sync_all_go template dry_run repos ⟨[], [], []⟩ [] []

/-! ### Reporting (`SyncResult.log`) -/

/-- Embedding of `SyncResult.log`: the lines printed, in order. An empty
Python list is falsy, so a bucket is printed exactly when non-empty, and the
closing message appears exactly when both `created` and `updated` are
empty. -/
def SyncResult.log (res : SyncResult) : List String :=
  (if res.created.isEmpty then [] else
    ("[gitignore-sync] created:") :: res.created.map (fun p => ("  - ") ++ p)) ++
  (if res.updated.isEmpty then [] else
    ("[gitignore-sync] updated:") :: res.updated.map (fun p => ("  - ") ++ p)) ++
  (if res.created.isEmpty && res.updated.isEmpty then
    [("[gitignore-sync] all repositories already match template")] else [])

/-! ### Entry points (`sync.main` and the package wrapper) -/

/-- The part of the world that `sync.main` touches after argument parsing:
the template file and the discovered repositories. -/
structure Workspace where
  template_file : File
  template_path : String
  repos : List Repo
deriving DecidableEq, Repr

/-- Embedding of the effectful body of `sync.main`: load the template, then
sync every repository. A template-load failure propagates before any
repository is read or written (empty trace, repositories untouched). -/
def main_run (w : Workspace) (dry_run : Bool) :
    Except PyError SyncResult × List Repo × List FsEvent :=
  match _load_template w.template_file w.template_path with
  | .error e => (.error e, w.repos, [])
  | .ok t => _sync_all w.repos t dry_run

/-- Embedding of the argument plumbing in `sync.main`:
`args = _parse_args(argv or sys.argv[1:])`. Python's `or` falls through on
any falsy value, so both `None` and the empty list select
`sys.argv[1:]`. -/
def main_argv (argv : Option (List String)) (sys_argv_tail : List String) :
    List String :=
  match argv with
  | none => sys_argv_tail
  | some l => if l.isEmpty then sys_argv_tail else l

/-- Embedding of the argument plumbing in `x_cls_make_gitignore_sync_x.main`:
`args = list(argv) if argv is not None else list(sys.argv[1:])` — only `None`
selects `sys.argv[1:]`; an empty list is passed through as-is. -/
def cls_main_argv (argv : Option (List String)) (sys_argv_tail : List String) :
    List String :=
  match argv with
  | none => sys_argv_tail
  | some l => l

/-! ### Structural lemmas about `_sync_all` -/

theorem sync_all_go_acc (template : String) (dry_run : Bool) (repos : List Repo)
    (acc : SyncResult) (done : List Repo) (evs : List FsEvent) :
    _sync_all_go template dry_run repos acc done evs =
      match _sync_all repos template dry_run with
      | (.ok res, fs, ev) =>
          (.ok ⟨acc.created ++ res.created, acc.updated ++ res.updated,
            acc.unchanged ++ res.unchanged⟩, done.reverse ++ fs, evs ++ ev)
      | (.error e, fs, ev) => (.error e, done.reverse ++ fs, evs ++ ev) := by
  induction repos generalizing acc done evs with
  | nil =>
    simp [_sync_all, _sync_all_go]
  | cons r rest ih =>
    rcases hsr : _sync_repo r template dry_run with ⟨res1, f, ev⟩
    cases res1 with
    | error e =>
      simp [_sync_all, _sync_all_go, hsr]
    | ok out =>
      rw [show _sync_all (r :: rest) template dry_run =
        _sync_all_go template dry_run (r :: rest) ⟨[], [], []⟩ [] [] from rfl]
      simp only [_sync_all_go, hsr]
      rw [ih, ih]
      rcases hrest : _sync_all rest template dry_run with ⟨res2, fs2, ev2⟩
      cases res2 with
      | error e =>
        simp
      | ok res =>
        by_cases hc : out = some ("created") <;>
          by_cases hu : out = some ("updated") <;>
          simp [hc, hu]

theorem sync_all_nil (template : String) (dry_run : Bool) :
    _sync_all [] template dry_run = (.ok ⟨[], [], []⟩, [], []) := rfl

theorem sync_all_cons (r : Repo) (rest : List Repo) (template : String)
    (dry_run : Bool) :
    _sync_all (r :: rest) template dry_run =
      match _sync_repo r template dry_run with
      | (.error e, f, ev) =>
          (.error e, { path := r.path, gitignore := f } :: rest, ev)
      | (.ok out, f, ev) =>
        match _sync_all rest template dry_run with
        | (.error e, fs, evs) =>
            (.error e, { path := r.path, gitignore := f } :: fs, ev ++ evs)
        | (.ok res, fs, evs) =>
            (.ok (if out = some ("created") then
                    { res with created := r.path :: res.created }
                  else if out = some ("updated") then
                    { res with updated := r.path :: res.updated }
                  else
                    { res with unchanged := r.path :: res.unchanged }),
              { path := r.path, gitignore := f } :: fs, ev ++ evs) := by
  rw [show _sync_all (r :: rest) template dry_run =
    _sync_all_go template dry_run (r :: rest) ⟨[], [], []⟩ [] [] from rfl]
  rcases hsr : _sync_repo r template dry_run with ⟨res1, f, ev⟩
  cases res1 with
  | error e =>
    simp [_sync_all_go, hsr]
  | ok out =>
    simp only [_sync_all_go, hsr]
    rw [sync_all_go_acc]
    rcases hrest : _sync_all rest template dry_run with ⟨res2, fs2, ev2⟩
    cases res2 with
    | error e =>
      simp
    | ok res =>
      by_cases hc : out = some ("created") <;>
        by_cases hu : out = some ("updated") <;>
        simp [hc, hu]

/-- A repository whose `.gitignore` is readable never raises, and the
result's first component is one of the three classifications. -/
theorem sync_repo_ok (r : Repo) (template : String) (dry_run : Bool)
    (h : r.gitignore ≠ .invalid) :
    ∃ out f ev, _sync_repo r template dry_run = (.ok out, f, ev) ∧
      (out = some ("created") ∨ out = some ("updated") ∨ out = none) := by
  cases hg : r.gitignore with
  | absent =>
    cases dry_run <;> simp [_sync_repo, hg]
  | invalid => exact absurd hg h
  | utf8 current =>
    by_cases he : current = template
    · simp [_sync_repo, hg, he]
    · cases dry_run <;> simp [_sync_repo, hg, he]

/-! ### Claim theorems -/

/-- C1: for every repository, `_sync_repo` classifies it as `created` exactly
when it has no `.gitignore`, as `updated` exactly when the existing content
differs from the template, and as unchanged (`None`) exactly when the content
is identical; outside dry-run, a `created` or `updated` repository ends with
a `.gitignore` whose content equals the template exactly. -/
theorem claim_C1 (r : Repo) (template : String) (dry_run : Bool)
    (h : r.gitignore ≠ .invalid) :
    ((_sync_repo r template dry_run).1 = .ok (some ("created")) ↔
      r.gitignore = .absent) ∧
    ((_sync_repo r template dry_run).1 = .ok (some ("updated")) ↔
      ∃ c, r.gitignore = .utf8 c ∧ c ≠ template) ∧
    ((_sync_repo r template dry_run).1 = .ok none ↔
      r.gitignore = .utf8 template) ∧
    (dry_run = false → (_sync_repo r template dry_run).1 ≠ .ok none →
      (_sync_repo r template dry_run).2.1 = .utf8 template) := by
  cases hg : r.gitignore with
  | absent => cases dry_run <;> simp [_sync_repo, hg]
  | invalid => exact absurd hg h
  | utf8 current =>
    by_cases he : current = template
    · cases dry_run <;> simp [_sync_repo, hg, he]
    · cases dry_run <;> simp [_sync_repo, hg, he, Ne.symm he]

/-- Witness for C1 at a repository whose `.gitignore` holds `"old"` and
template `"T"`. -/
theorem claim_C1_witness :
    ((_sync_repo ⟨("r"), .utf8 ("old")⟩ ("T") false).1 = .ok (some ("created")) ↔
      (File.utf8 ("old") : File) = .absent) ∧
    ((_sync_repo ⟨("r"), .utf8 ("old")⟩ ("T") false).1 = .ok (some ("updated")) ↔
      ∃ c, (File.utf8 ("old") : File) = .utf8 c ∧ c ≠ ("T")) ∧
    ((_sync_repo ⟨("r"), .utf8 ("old")⟩ ("T") false).1 = .ok none ↔
      (File.utf8 ("old") : File) = .utf8 ("T")) ∧
    (false = false → (_sync_repo ⟨("r"), .utf8 ("old")⟩ ("T") false).1 ≠ .ok none →
      (_sync_repo ⟨("r"), .utf8 ("old")⟩ ("T") false).2.1 = .utf8 ("T")) :=
  claim_C1 ⟨("r"), .utf8 ("old")⟩ ("T") false (fun hh => File.noConfusion hh)

/-- C2: dry-run computes the same classification as a real run but performs
no mutation (the file state is unchanged and the trace holds no write); a
real run performs at most one write per repository and never writes an
unchanged repository; a dry run over a whole repository list leaves every
repository untouched and its trace holds no write at all. -/
theorem claim_C2 (template : String) :
    (∀ r : Repo,
      (_sync_repo r template true).1 = (_sync_repo r template false).1 ∧
      (_sync_repo r template true).2.1 = r.gitignore ∧
      List.filter isWrite (_sync_repo r template true).2.2 = [] ∧
      (List.filter isWrite (_sync_repo r template false).2.2).length ≤ 1 ∧
      ((_sync_repo r template false).1 = .ok none →
        List.filter isWrite (_sync_repo r template false).2.2 = [] ∧
        (_sync_repo r template false).2.1 = r.gitignore)) ∧
    (∀ repos : List Repo,
      (_sync_all repos template true).2.1 = repos ∧
      List.filter isWrite (_sync_all repos template true).2.2 = []) := by
  have single : ∀ r : Repo,
      (_sync_repo r template true).1 = (_sync_repo r template false).1 ∧
      (_sync_repo r template true).2.1 = r.gitignore ∧
      List.filter isWrite (_sync_repo r template true).2.2 = [] ∧
      (List.filter isWrite (_sync_repo r template false).2.2).length ≤ 1 ∧
      ((_sync_repo r template false).1 = .ok none →
        List.filter isWrite (_sync_repo r template false).2.2 = [] ∧
        (_sync_repo r template false).2.1 = r.gitignore) := by
    intro r
    cases hg : r.gitignore with
    | absent => simp [_sync_repo, hg, isWrite]
    | invalid => simp [_sync_repo, hg, isWrite]
    | utf8 current =>
      by_cases he : current = template <;> simp [_sync_repo, hg, he, isWrite]
  refine ⟨single, ?_⟩
  intro repos
  induction repos with
  | nil => simp [sync_all_nil]
  | cons r rest ih =>
    rcases hsr : _sync_repo r template true with ⟨res1, f, ev⟩
    have hf : f = r.gitignore := by
      have := (single r).2.1
      rw [hsr] at this
      exact this
    have hev : List.filter isWrite ev = [] := by
      have := (single r).2.2.1
      rw [hsr] at this
      exact this
    rcases hrest : _sync_all rest template true with ⟨res2, fs2, ev2⟩
    have hfs2 : fs2 = rest := by
      have := ih.1
      rw [hrest] at this
      exact this
    have hev2 : List.filter isWrite ev2 = [] := by
      have := ih.2
      rw [hrest] at this
      exact this
    cases res1 with
    | error e =>
      rw [sync_all_cons]
      simp [hsr, hf, hev]
    | ok out =>
      rw [sync_all_cons]
      cases res2 with
      | error e => simp [hsr, hrest, hf, hev, hfs2, List.filter_append, hev2]
      | ok res => simp [hsr, hrest, hf, hev, hfs2, List.filter_append, hev2]

/-- C5: when the template cannot be loaded, `main` fails before any
repository is touched — the repositories keep their states and the
filesystem trace is empty. -/
theorem claim_C5 (w : Workspace) (dry_run : Bool) (e : PyError)
    (h : _load_template w.template_file w.template_path = .error e) :
    main_run w dry_run = (.error e, w.repos, []) := by
  simp [main_run, h]

/-- Witness for C5: a workspace whose template file is missing. -/
theorem claim_C5_witness :
    main_run ⟨.absent, ("tpl"), [⟨("r1"), .absent⟩]⟩ false =
      (.error (.fileNotFound (("template file not found: ") ++ ("tpl"))),
        [⟨("r1"), .absent⟩], []) :=
  claim_C5 ⟨.absent, ("tpl"), [⟨("r1"), .absent⟩]⟩ false _ rfl

/-- C6: loading the template from a missing file fails with a not-found error
whose message contains the offending path; any other error from reading the
template propagates unchanged. -/
theorem claim_C6 (f : File) (path : String) :
    (∃ msg, _load_template .absent path = .error (.fileNotFound msg) ∧
      ∃ pre post, msg = pre ++ path ++ post) ∧
    (∀ e, read_text f path = .error e → (∀ s, e ≠ .fileNotFound s) →
      _load_template f path = .error e) := by
  constructor
  · refine ⟨("template file not found: ") ++ path, rfl,
      ("template file not found: "), ("") , ?_⟩
    rw [String.append_empty]
  · intro e he hnf
    cases f with
    | absent =>
      exfalso
      apply hnf path
      simpa [read_text] using he.symm
    | invalid =>
      have : e = PyError.unicodeDecodeError := by
        simpa [read_text] using he.symm
      simp [_load_template, read_text, this]
    | utf8 c => simp [read_text] at he

/-- C10: `sync.main`'s argument expression `argv or sys.argv[1:]` tests
truthiness, so an explicitly empty argument list falls back to the ambient
process arguments (as does `None`), while any non-empty list is used as
given; the package wrapper passes an empty list through unchanged, so the
fallback also fires when the wrapper is called with an empty list. -/
theorem claim_C10 (s : List String) :
    main_argv (some []) s = s ∧
    main_argv none s = s ∧
    cls_main_argv (some []) s = [] ∧
    main_argv (some (cls_main_argv (some []) s)) s = s ∧
    (∀ l : List String, l ≠ [] → main_argv (some l) s = l) := by
  refine ⟨rfl, rfl, rfl, rfl, ?_⟩
  intro l hl
  cases l with
  | nil => exact absurd rfl hl
  | cons a as => rfl

/-- C3: discovery returns exactly the root itself (when it contains a `.git`
entry) plus every direct non-hidden child directory containing a `.git`
entry, in sorted order; by the membership characterisation every returned
path is the root or lies exactly one level below it, so nothing deeper is
ever included. -/
theorem claim_C3 (rootPath : String) (root : RootDir) :
    List.Sorted (fun a b => strLe a b = true)
      (_discover_repositories rootPath root) ∧
    (∀ p, p ∈ _discover_repositories rootPath root ↔
      ((p = rootPath ∧ root.has_git = true) ∨
        (∃ c ∈ root.children, c.is_dir = true ∧
          c.name.startsWith (".") = false ∧ c.has_git = true ∧
          p = childPath rootPath c.name))) := by
  constructor
  · exact List.sorted_insertionSort _ _
  · intro p
    rw [_discover_repositories, (List.perm_insertionSort _ _).mem_iff]
    cases hg : root.has_git <;>
      simp [hg, List.mem_filter, and_assoc]
    all_goals aesop

/-- C8: the summary lists every created path when the `created` bucket is
non-empty (under its header line), every updated path when the `updated`
bucket is non-empty, and consists of the single all-match message exactly
when both buckets are empty; the `unchanged` bucket never influences the
output. -/
theorem claim_C8 (res : SyncResult) :
    (∀ u, SyncResult.log { res with unchanged := u } = SyncResult.log res) ∧
    (∀ p ∈ res.created, (("  - ") ++ p) ∈ SyncResult.log res) ∧
    (∀ p ∈ res.updated, (("  - ") ++ p) ∈ SyncResult.log res) ∧
    (res.created ≠ [] → ("[gitignore-sync] created:") ∈ SyncResult.log res) ∧
    (res.updated ≠ [] → ("[gitignore-sync] updated:") ∈ SyncResult.log res) ∧
    (SyncResult.log res =
        [("[gitignore-sync] all repositories already match template")] ↔
      res.created = [] ∧ res.updated = []) := by
  obtain ⟨cs, us, vs⟩ := res
  cases cs <;> cases us <;>
    refine ⟨fun u => rfl, ?_, ?_, ?_, ?_, ?_⟩ <;>
    simp [SyncResult.log]
  all_goals aesop

/-- When every repository's `.gitignore` is readable, `_sync_all` succeeds
and each bucket holds exactly the repositories classified accordingly, in
input traversal order; the bucket sizes sum to the input length. -/
theorem sync_all_ok_spec (repos : List Repo) (template : String) (dry_run : Bool)
    (h : ∀ r ∈ repos, r.gitignore ≠ .invalid) :
    ∃ res fs evs, _sync_all repos template dry_run = (.ok res, fs, evs) ∧
      res.created = (repos.filter (fun r =>
        decide ((_sync_repo r template dry_run).1 =
          .ok (some ("created"))))).map Repo.path ∧
      res.updated = (repos.filter (fun r =>
        decide ((_sync_repo r template dry_run).1 =
          .ok (some ("updated"))))).map Repo.path ∧
      res.unchanged = (repos.filter (fun r =>
        decide ((_sync_repo r template dry_run).1 = .ok none))).map Repo.path ∧
      res.created.length + res.updated.length + res.unchanged.length =
        repos.length := by
  induction repos with
  | nil => exact ⟨⟨[], [], []⟩, [], [], rfl, rfl, rfl, rfl, rfl⟩
  | cons r rest ih =>
    have hr := h r (List.mem_cons_self r rest)
    have hrest : ∀ s ∈ rest, s.gitignore ≠ .invalid :=
      fun s hs => h s (List.mem_cons_of_mem _ hs)
    obtain ⟨out, f, ev, hsr, hout⟩ := sync_repo_ok r template dry_run hr
    obtain ⟨res, fs, evs, hall, hc, hu, hn, hlen⟩ := ih hrest
    rcases hout with h1 | h1 | h1 <;> subst h1
    · refine ⟨⟨r.path :: res.created, res.updated, res.unchanged⟩,
        ⟨r.path, f⟩ :: fs, ev ++ evs, ?_, ?_, ?_, ?_, ?_⟩
      · rw [sync_all_cons, hsr, hall]
        simp
      · simp [List.filter_cons, hsr, hc]
      · simp [List.filter_cons, hsr, hu]
      · simp [List.filter_cons, hsr, hn]
      · simp only [List.length_cons]
        omega
    · refine ⟨⟨res.created, r.path :: res.updated, res.unchanged⟩,
        ⟨r.path, f⟩ :: fs, ev ++ evs, ?_, ?_, ?_, ?_, ?_⟩
      · rw [sync_all_cons, hsr, hall]
        simp
      · simp [List.filter_cons, hsr, hc]
      · simp [List.filter_cons, hsr, hu]
      · simp [List.filter_cons, hsr, hn]
      · simp only [List.length_cons]
        omega
    · refine ⟨⟨res.created, res.updated, r.path :: res.unchanged⟩,
        ⟨r.path, f⟩ :: fs, ev ++ evs, ?_, ?_, ?_, ?_, ?_⟩
      · rw [sync_all_cons, hsr, hall]
        simp
      · simp [List.filter_cons, hsr, hc]
      · simp [List.filter_cons, hsr, hu]
      · simp [List.filter_cons, hsr, hn]
      · simp only [List.length_cons]
        omega

/-- C4: the `SyncResult` of a run over readable repositories partitions the
input — the three buckets are the input filtered by classification (so each
repository lands in exactly one bucket, in input traversal order), and the
bucket sizes sum to the number of repositories. -/
theorem claim_C4 (repos : List Repo) (template : String) (dry_run : Bool)
    (h : ∀ r ∈ repos, r.gitignore ≠ .invalid) :
    ∃ res fs evs, _sync_all repos template dry_run = (.ok res, fs, evs) ∧
      res.created = (repos.filter (fun r =>
        decide ((_sync_repo r template dry_run).1 =
          .ok (some ("created"))))).map Repo.path ∧
      res.updated = (repos.filter (fun r =>
        decide ((_sync_repo r template dry_run).1 =
          .ok (some ("updated"))))).map Repo.path ∧
      res.unchanged = (repos.filter (fun r =>
        decide ((_sync_repo r template dry_run).1 = .ok none))).map Repo.path ∧
      res.created.length + res.updated.length + res.unchanged.length =
        repos.length :=
  sync_all_ok_spec repos template dry_run h

/-- Witness for C4: three repositories, one of each kind, template `"T"`. -/
theorem claim_C4_witness :
    ∃ res fs evs,
      _sync_all [⟨("a"), .absent⟩, ⟨("b"), .utf8 ("old")⟩, ⟨("c"), .utf8 ("T")⟩]
        ("T") false = (.ok res, fs, evs) ∧
      res.created = (([⟨("a"), .absent⟩, ⟨("b"), .utf8 ("old")⟩,
        ⟨("c"), .utf8 ("T")⟩] : List Repo).filter (fun r =>
          decide ((_sync_repo r ("T") false).1 =
            .ok (some ("created"))))).map Repo.path ∧
      res.updated = (([⟨("a"), .absent⟩, ⟨("b"), .utf8 ("old")⟩,
        ⟨("c"), .utf8 ("T")⟩] : List Repo).filter (fun r =>
          decide ((_sync_repo r ("T") false).1 =
            .ok (some ("updated"))))).map Repo.path ∧
      res.unchanged = (([⟨("a"), .absent⟩, ⟨("b"), .utf8 ("old")⟩,
        ⟨("c"), .utf8 ("T")⟩] : List Repo).filter (fun r =>
          decide ((_sync_repo r ("T") false).1 = .ok none))).map Repo.path ∧
      res.created.length + res.updated.length + res.unchanged.length =
        ([⟨("a"), .absent⟩, ⟨("b"), .utf8 ("old")⟩,
          ⟨("c"), .utf8 ("T")⟩] : List Repo).length :=
  claim_C4 [⟨("a"), .absent⟩, ⟨("b"), .utf8 ("old")⟩, ⟨("c"), .utf8 ("T")⟩]
    ("T") false (by decide)

/-- C7: a repository's classification is the pure function `_sync_repo` of
its own `.gitignore` content, the template and the dry-run flag alone: in any
two runs that contain the same repository among arbitrary other repositories,
it lands in the bucket that `_sync_repo` alone determines. -/
theorem claim_C7 (template : String) (dry_run : Bool)
    (xs ys xs2 ys2 : List Repo) (r : Repo)
    (h1 : ∀ s ∈ xs ++ r :: ys, s.gitignore ≠ .invalid)
    (h2 : ∀ s ∈ xs2 ++ r :: ys2, s.gitignore ≠ .invalid) :
    ∃ out f ev res fs evs res2 fs2 evs2,
      _sync_repo r template dry_run = (.ok out, f, ev) ∧
      _sync_all (xs ++ r :: ys) template dry_run = (.ok res, fs, evs) ∧
      _sync_all (xs2 ++ r :: ys2) template dry_run = (.ok res2, fs2, evs2) ∧
      (out = some ("created") → r.path ∈ res.created ∧ r.path ∈ res2.created) ∧
      (out = some ("updated") → r.path ∈ res.updated ∧ r.path ∈ res2.updated) ∧
      (out = none → r.path ∈ res.unchanged ∧ r.path ∈ res2.unchanged) := by
  have hmem : r ∈ xs ++ r :: ys :=
    List.mem_append_right _ (List.mem_cons_self r ys)
  have hmem2 : r ∈ xs2 ++ r :: ys2 :=
    List.mem_append_right _ (List.mem_cons_self r ys2)
  obtain ⟨out, f, ev, hsr, _⟩ :=
    sync_repo_ok r template dry_run (h1 r hmem)
  obtain ⟨res, fs, evs, hall, hc, hu, hn, _⟩ :=
    sync_all_ok_spec (xs ++ r :: ys) template dry_run h1
  obtain ⟨res2, fs2, evs2, hall2, hc2, hu2, hn2, _⟩ :=
    sync_all_ok_spec (xs2 ++ r :: ys2) template dry_run h2
  refine ⟨out, f, ev, res, fs, evs, res2, fs2, evs2, hsr, hall, hall2,
    ?_, ?_, ?_⟩
  · intro hval
    subst hval
    constructor
    · rw [hc]
      exact List.mem_map_of_mem _ (List.mem_filter.2 ⟨hmem, by simp [hsr]⟩)
    · rw [hc2]
      exact List.mem_map_of_mem _ (List.mem_filter.2 ⟨hmem2, by simp [hsr]⟩)
  · intro hval
    subst hval
    constructor
    · rw [hu]
      exact List.mem_map_of_mem _ (List.mem_filter.2 ⟨hmem, by simp [hsr]⟩)
    · rw [hu2]
      exact List.mem_map_of_mem _ (List.mem_filter.2 ⟨hmem2, by simp [hsr]⟩)
  · intro hval
    subst hval
    constructor
    · rw [hn]
      exact List.mem_map_of_mem _ (List.mem_filter.2 ⟨hmem, by simp [hsr]⟩)
    · rw [hn2]
      exact List.mem_map_of_mem _ (List.mem_filter.2 ⟨hmem2, by simp [hsr]⟩)

/-- Witness for C7: the repository `⟨"m", "old"⟩` among different company in
the two runs. -/
theorem claim_C7_witness :
    ∃ out f ev res fs evs res2 fs2 evs2,
      _sync_repo ⟨("m"), .utf8 ("old")⟩ ("T") true = (.ok out, f, ev) ∧
      _sync_all ([⟨("a"), .absent⟩] ++ ⟨("m"), .utf8 ("old")⟩ :: []) ("T") true =
        (.ok res, fs, evs) ∧
      _sync_all ([] ++ ⟨("m"), .utf8 ("old")⟩ :: [⟨("z"), .utf8 ("T")⟩]) ("T") true =
        (.ok res2, fs2, evs2) ∧
      (out = some ("created") → ("m") ∈ res.created ∧ ("m") ∈ res2.created) ∧
      (out = some ("updated") → ("m") ∈ res.updated ∧ ("m") ∈ res2.updated) ∧
      (out = none → ("m") ∈ res.unchanged ∧ ("m") ∈ res2.unchanged) :=
  claim_C7 ("T") true [⟨("a"), .absent⟩] [] [] [⟨("z"), .utf8 ("T")⟩]
    ⟨("m"), .utf8 ("old")⟩ (by decide) (by decide)

/-- C9: an unreadable `.gitignore` aborts the whole run with a decode error
and no per-repository isolation — repositories synced earlier in the run keep
their new states, the failing repository and all later ones keep their old
states and are not touched; an unreadable template aborts before any
repository is processed. -/
theorem claim_C9 (xs ys : List Repo) (r : Repo) (template : String)
    (dry_run : Bool)
    (hxs : ∀ s ∈ xs, s.gitignore ≠ .invalid)
    (hr : r.gitignore = .invalid) :
    (∃ res fs evs, _sync_all xs template dry_run = (.ok res, fs, evs) ∧
      _sync_all (xs ++ r :: ys) template dry_run =
        (.error .unicodeDecodeError, fs ++ r :: ys,
          evs ++ [.readGitignore r.path])) ∧
    (∀ w : Workspace, w.template_file = .invalid →
      main_run w dry_run = (.error .unicodeDecodeError, w.repos, [])) := by
  constructor
  · have hsr : _sync_repo r template dry_run =
        (.error .unicodeDecodeError, .invalid, [.readGitignore r.path]) := by
      simp [_sync_repo, hr]
    have heta : ({ path := r.path, gitignore := File.invalid } : Repo) = r := by
      rw [← hr]
    induction xs with
    | nil =>
      refine ⟨⟨[], [], []⟩, [], [], rfl, ?_⟩
      rw [List.nil_append, sync_all_cons, hsr]
      simp [heta]
    | cons x xs' ih =>
      have hx := hxs x (List.mem_cons_self x xs')
      have hxs' : ∀ s ∈ xs', s.gitignore ≠ .invalid :=
        fun s hs => hxs s (List.mem_cons_of_mem _ hs)
      obtain ⟨out, f, ev, hsx, hout⟩ := sync_repo_ok x template dry_run hx
      obtain ⟨res, fs, evs, hall, herr⟩ := ih hxs'
      rcases hout with h1 | h1 | h1 <;> subst h1
      · refine ⟨⟨x.path :: res.created, res.updated, res.unchanged⟩,
          ⟨x.path, f⟩ :: fs, ev ++ evs, ?_, ?_⟩
        · rw [sync_all_cons, hsx, hall]
          simp
        · rw [List.cons_append, sync_all_cons, hsx, herr]
          simp
      · refine ⟨⟨res.created, x.path :: res.updated, res.unchanged⟩,
          ⟨x.path, f⟩ :: fs, ev ++ evs, ?_, ?_⟩
        · rw [sync_all_cons, hsx, hall]
          simp
        · rw [List.cons_append, sync_all_cons, hsx, herr]
          simp
      · refine ⟨⟨res.created, res.updated, x.path :: res.unchanged⟩,
          ⟨x.path, f⟩ :: fs, ev ++ evs, ?_, ?_⟩
        · rw [sync_all_cons, hsx, hall]
          simp
        · rw [List.cons_append, sync_all_cons, hsx, herr]
          simp
  · intro w hw
    simp [main_run, _load_template, read_text, hw]

/-- Witness for C9: the second of three repositories has an unreadable
`.gitignore`. -/
theorem claim_C9_witness :
    (∃ res fs evs,
      _sync_all [⟨("a"), .absent⟩] ("T") false = (.ok res, fs, evs) ∧
      _sync_all ([⟨("a"), .absent⟩] ++ ⟨("b"), .invalid⟩ ::
          [⟨("c"), .utf8 ("T")⟩]) ("T") false =
        (.error .unicodeDecodeError, fs ++ ⟨("b"), .invalid⟩ ::
          [⟨("c"), .utf8 ("T")⟩], evs ++ [.readGitignore ("b")])) ∧
    (∀ w : Workspace, w.template_file = .invalid →
      main_run w false = (.error .unicodeDecodeError, w.repos, [])) :=
  claim_C9 [⟨("a"), .absent⟩] [⟨("c"), .utf8 ("T")⟩] ⟨("b"), .invalid⟩
    ("T") false (by decide) rfl

end GitignoreSync
